import Mathlib

/-!
# Storefront bootstrap configuration (`nuxt.config.js`)

A shallow embedding of the asynchronous default export of `nuxt.config.js`:
the function that awaits `mergeSettings(settings)` and then builds the
configuration object handed to the framework.

* JavaScript values are the data values a JSON settings document can hold,
  plus `undefined`.
* `process.env` is a finite map from variable names to strings.
* The three helpers imported from `./modules/...` (`mergeSettings`,
  `getGoogleFontConfig`, `getLangSettings`) are parameters of the embedding.
* A thrown exception or rejected promise is the `error` branch of `Except`;
  every call to a helper is recorded, in order, in a call log.
-/

set_option autoImplicit false

namespace NuxtConfig

/-! ## JavaScript values -/

/-- Data values of the settings documents: JSON values plus `undefined`.
Numbers are restricted to integers. -/
inductive JSVal where
  | undefined : JSVal
  | null : JSVal
  | bool (b : Bool) : JSVal
  | num (n : Int) : JSVal
  | str (s : String) : JSVal
  | arr (items : List JSVal) : JSVal
  | obj (fields : List (String × JSVal)) : JSVal

namespace JSVal

/-- The test `v == null` of JavaScript: true for `null` and `undefined` only. -/
def isNullish : JSVal → Bool
  | undefined => true
  | null => true
  | _ => false

/-- The abstract operation `ToBoolean`: the falsy values are `undefined`,
`null`, `false`, `0` and the empty string. -/
def toBoolean : JSVal → Bool
  | undefined => false
  | null => false
  | bool b => b
  | num n => n != 0
  | str s => s != ""
  | arr _ => true
  | obj _ => true

/-- The operator `a && b`: the left operand when it is falsy, otherwise the
right operand. -/
def and (a b : JSVal) : JSVal :=
  if a.toBoolean then b else a

/-- The operator `a || b`: the left operand when it is truthy, otherwise the
right operand. -/
def or (a b : JSVal) : JSVal :=
  if a.toBoolean then a else b

/-- The test `key in Object(v)` for a key that no built-in prototype defines:
true exactly when `v` is an object with that own key. -/
def hasOwn : JSVal → String → Bool
  | obj fields, key => fields.any fun kv => kv.1 == key
  | _, _ => false

/-- The property read `v[key]` on a value that is neither `null` nor
`undefined`, for keys that are not built-in members (`length`, indices,
methods): an object yields the value stored under the key, everything else
yields `undefined`. -/
def getProp : JSVal → String → JSVal
  | obj fields, key => (fields.lookup key).getD undefined
  | _, _ => undefined

end JSVal

open JSVal

/-- What a failed bootstrap carries: a `TypeError` raised by reading property
`property` of the nullish value `base`, or the rejection reason of a helper. -/
inductive Thrown where
  | typeError (property : String) (base : JSVal) : Thrown
  | rejected (reason : JSVal) : Thrown

/-- The member expression `o.key`: throws a `TypeError` on `null` and
`undefined`, reads the property otherwise. -/
def member (o : JSVal) (key : String) : Except Thrown JSVal :=
  if o.isNullish then Except.error (Thrown.typeError key o) else Except.ok (o.getProp key)

/-! ## `lodash/get` -/

/-- Splits a list of characters at every dot. -/
def splitDots : List Char → List (List Char)
  | [] => [[]]
  | c :: cs =>
    if c = '.' then [] :: splitDots cs
    else
      match splitDots cs with
      | [] => [[c]]
      | seg :: segs => (c :: seg) :: segs

/-- The function `stringToPath` of lodash on a path without brackets: its
dot-separated segments. -/
def stringToPath (path : String) : List String :=
  (splitDots path.toList).map String.mk

/-- The function `castPath` of lodash on a bracket-free string path: the path
is one key when it has no dot or when the object has a property of exactly that name,
and is split at the dots otherwise. -/
def castPath (path : String) (object : JSVal) : List String :=
  if !path.toList.contains '.' || (!object.isNullish && object.hasOwn path) then [path]
  else stringToPath path

/-- The loop of `baseGet`: follows the keys while the current value is not
nullish; `none` when it stops before the last key. -/
def baseGetLoop : JSVal → List String → Option JSVal
  | o, [] => some o
  | o, key :: keys => if o.isNullish then none else baseGetLoop (o.getProp key) keys

/-- The function `baseGet` of lodash: the value at the end of the path, `undefined` when
the path is empty or the walk stops early. -/
def baseGet (object : JSVal) (path : String) : JSVal :=
  match castPath path object with
  | [] => undefined
  | keys => (baseGetLoop object keys).getD undefined

/-- The call `get(object, path)` of lodash, without a default value. -/
def get (object : JSVal) (path : String) : JSVal :=
  if object.isNullish then undefined else baseGet object path

/-! ## Environment -/

/-- The object `process.env`: each variable is a string or absent. -/
abbrev Env := String → Option String

/-- The expression `process.env.NAME` as a value. -/
def envVal (env : Env) (name : String) : JSVal :=
  match env name with
  | some s => str s
  | none => undefined

/-- The constant `isProduction = process.env.NODE_ENV === 'production'`. -/
def isProduction (env : Env) : Bool :=
  decide (env "NODE_ENV" = some "production")

/-- The constant `editorMode = process.env.SWELL_EDITOR === 'true'`. -/
def editorMode (env : Env) : Bool :=
  decide (env "SWELL_EDITOR" = some "true")

/-- The messages logged when the file is loaded:
`if (editorMode) logger.info('Swell Editor enabled')`. -/
def startupLog (env : Env) : List String :=
  if editorMode env then ["Swell Editor enabled"] else []

/-! ## Imported helpers -/

/-- The helpers imported from `./modules/...`, whose bodies live outside this
file. `mergeSettings` and `getLangSettings` are awaited and may reject;
`getGoogleFontConfig` is the font projector, a total function of its
argument. -/
structure Helpers where
  mergeSettings : JSVal → Except Thrown JSVal
  getGoogleFontConfig : JSVal → JSVal
  getLangSettings : JSVal → Bool → Except Thrown JSVal

/-- One call to an imported helper, with its arguments. -/
inductive Call where
  | mergeSettings (arg : JSVal) : Call
  | getGoogleFontConfig (arg : JSVal) : Call
  | getLangSettings (arg : JSVal) (editor : Bool) : Call

namespace Call

/-- Whether the call is a call to `mergeSettings`. -/
def isMerge : Call → Bool
  | mergeSettings _ => true
  | _ => false

/-- Whether the call is a call to one of the two projectors. -/
def isProjector : Call → Bool
  | mergeSettings _ => false
  | _ => true

end Call

/-! ## The configuration object -/

/-- An entry of `plugins`: `{ src, mode }`, the mode being optional. -/
structure Plugin where
  src : String
  mode : Option String

/-- An entry of `modules` or `buildModules`: `[name]` or `[name, options]`. -/
structure ModuleEntry where
  name : String
  options : Option JSVal

/-- The field `vue.config`. -/
structure VueConfig where
  devtools : Bool
  productionTip : Bool

/-- The field `loading`. -/
structure Loading where
  color : JSVal
  continuous : Bool

/-- The field `gtm`. -/
structure Gtm where
  id : JSVal
  enabled : JSVal

/-- A rule of `pwa.workbox.runtimeCaching`. -/
structure CacheRule where
  urlPattern : String

/-- The field `pwa`, with `meta.name` and `workbox.runtimeCaching` flattened. -/
structure Pwa where
  manifest : Bool
  metaName : JSVal
  runtimeCaching : List CacheRule

/-- The field `server`. -/
structure Server where
  host : JSVal
  port : JSVal

/-- The object returned by the default export. The function-valued field
`router.extendRoutes` is the separate definition `extendRoutes`. -/
structure Config where
  vue : VueConfig
  components : Bool
  loading : Loading
  plugins : List Plugin
  modules : List ModuleEntry
  buildModules : List ModuleEntry
  gtm : Gtm
  pwa : Pwa
  i18n : JSVal
  generateFallback : Bool
  routerTrailingSlash : Bool
  server : Server

/-- A route record pushed by `extendRoutes`. -/
structure Route where
  name : String
  path : String
  component : String

/-- The body of `router.extendRoutes(routes, resolve)`: appends the home page
alias. -/
def extendRoutes (dirname : String) (routes : List Route)
    (resolve : String → String → String) : List Route :=
  routes ++ [{ name := "index", path := "/", component := resolve dirname "pages/_slug.vue" }]

/-- The array literal `plugins`. -/
def plugins : List Plugin :=
  [ { src := "~/plugins/vue-country-region-select", mode := some "client" },
    { src := "~/plugins/vue-credit-card-validation", mode := some "client" },
    { src := "~/plugins/directives", mode := some "client" },
    { src := "~/plugins/swell-lang.js", mode := none } ]

/-- The array literal `modules`. -/
def modules : List ModuleEntry :=
  [ { name := "@nuxtjs/gtm", options := none },
    { name := "@nuxtjs/sentry", options := some (obj []) } ]

/-- The array literal `buildModules`, given the already evaluated font
configuration. -/
def buildModules (env : Env) (fontConfig : JSVal) : List ModuleEntry :=
  [ { name := "nuxt-i18n", options := none },
    { name := "@nuxtjs/tailwindcss", options := some (obj []) },
    { name := "@nuxtjs/google-fonts", options := some fontConfig },
    { name := "~/modules/swell-editor",
      options := some (obj [("useEditorSettings", bool (editorMode env))]) },
    { name := "~/modules/swell",
      options := some (obj
        [ ("storeId", envVal env "SWELL_STORE_ID"),
          ("publicKey", envVal env "SWELL_PUBLIC_KEY"),
          ("previewContent", bool (editorMode env)),
          ("storeUrl", envVal env "SWELL_STORE_URL") ]) },
    { name := "@nuxtjs/pwa", options := none } ]

/-- The expression `allSettings.analytics.gtmId`: two member reads, each of
which throws on a nullish base. -/
def analyticsGtmId (allSettings : JSVal) : Except Thrown JSVal :=
  match member allSettings "analytics" with
  | Except.error e => Except.error e
  | Except.ok analytics => member analytics "gtmId"

/-- The outcome of one invocation of the default export: the helper calls
made, in order, and either the returned object or what was thrown. -/
structure Outcome where
  calls : List Call
  result : Except Thrown Config

/-- The default export `async () => { ... }`. Property values of the object
literal are evaluated in source order: `loading`, `buildModules` (which calls
`getGoogleFontConfig(settings)`), `gtm.id`, `gtm.enabled`, `pwa`, `i18n`,
`server`. -/
def defaultExport (env : Env) (h : Helpers) (settings : JSVal) : Outcome :=
  match h.mergeSettings settings with
  | Except.error e => { calls := [Call.mergeSettings settings], result := Except.error e }
  | Except.ok allSettings =>
    let color := get allSettings "colors.accent"
    let fontConfig := h.getGoogleFontConfig settings
    let calls2 := [Call.mergeSettings settings, Call.getGoogleFontConfig settings]
    match analyticsGtmId allSettings with
    | Except.error e => { calls := calls2, result := Except.error e }
    | Except.ok gtmId =>
      match analyticsGtmId allSettings with
      | Except.error e => { calls := calls2, result := Except.error e }
      | Except.ok gtmId2 =>
        let enabled := JSVal.and gtmId2 (bool (isProduction env))
        let metaName := get allSettings "store.name"
        let calls3 := calls2 ++ [Call.getLangSettings allSettings (editorMode env)]
        match h.getLangSettings allSettings (editorMode env) with
        | Except.error e => { calls := calls3, result := Except.error e }
        | Except.ok i18n =>
          { calls := calls3,
            result := Except.ok
              { vue := { devtools := !isProduction env, productionTip := false },
                components := true,
                loading := { color := color, continuous := true },
                plugins := plugins,
                modules := modules,
                buildModules := buildModules env fontConfig,
                gtm := { id := gtmId, enabled := enabled },
                pwa := { manifest := false, metaName := metaName,
                         runtimeCaching := [{ urlPattern := "https://cdn.schema.io/*" }] },
                i18n := i18n,
                generateFallback := true,
                routerTrailingSlash := true,
                server := { host := JSVal.or (envVal env "HOST") (str "localhost"),
                            port := JSVal.or (envVal env "PORT") (num 3333) } } }

/-- The names of a module list, in order. -/
def moduleNames (mods : List ModuleEntry) : List String :=
  mods.map fun entry => entry.name

/-- The second element of the entry of module `name` in a module list, when
there is one. -/
def moduleOptions (mods : List ModuleEntry) (name : String) : Option JSVal :=
  match mods.find? fun entry => entry.name == name with
  | some entry => entry.options
  | none => none

/-- The option `key` handed to the module `name` of a module list. -/
def moduleOption (mods : List ModuleEntry) (name key : String) : Option JSVal :=
  (moduleOptions mods name).map fun options => options.getProp key

/-! ## Sample inputs -/

/-- An environment of a production build: `NODE_ENV=production`. -/
def productionEnv : Env := fun name =>
  if name = "NODE_ENV" then some "production" else none

/-- An environment of a development build: `NODE_ENV=development`. -/
def developmentEnv : Env := fun name =>
  if name = "NODE_ENV" then some "development" else none

/-- A production environment with the storefront editor switched on. -/
def editorEnv : Env := fun name =>
  if name = "NODE_ENV" then some "production"
  else if name = "SWELL_EDITOR" then some "true" else none

/-- A base settings document with an empty tag id. -/
def baseDocument : JSVal :=
  obj [("colors", obj [("accent", str "#000")]), ("analytics", obj [("gtmId", str "")])]

/-- The base document after the tag id has been overridden with `GTM-1`. -/
def mergedDocument : JSVal :=
  obj [("colors", obj [("accent", str "#000")]), ("analytics", obj [("gtmId", str "GTM-1")])]

/-- A base settings document whose typography names the family `Roboto`. -/
def fontBaseDocument : JSVal :=
  obj [("typography", obj [("family", str "Roboto")]), ("analytics", obj [("gtmId", str "")])]

/-- The same document after an override has changed the family to `Lato`. -/
def fontMergedDocument : JSVal :=
  obj [("typography", obj [("family", str "Lato")]), ("analytics", obj [("gtmId", str "")])]

/-- A resolved model without a `colors` namespace whose top-level key is
literally named `colors.accent`. -/
def dottedKeyDocument : JSVal :=
  obj [("colors.accent", str "#f00"), ("analytics", obj [("gtmId", str "")])]

/-- A sample font projector: one entry for a non-empty textual
`typography.family`, no entry otherwise. -/
def sampleFontConfig (s : JSVal) : JSVal :=
  match get s "typography.family" with
  | str family => if family = "" then arr [] else arr [obj [("family", str family)]]
  | _ => arr []

/-- A sample localisation projector: the locale list of the model and
whether the editor is active. -/
def sampleLangSettings (m : JSVal) (editor : Bool) : Except Thrown JSVal :=
  Except.ok (obj [("locales", get m "store.locales"), ("preview", bool editor)])

/-- Helpers whose override resolution yields the model `m`. -/
def helpersReturning (m : JSVal) : Helpers :=
  { mergeSettings := fun _ => Except.ok m,
    getGoogleFontConfig := sampleFontConfig,
    getLangSettings := sampleLangSettings }

/-- Helpers whose override resolution rejects with `e`. -/
def helpersRejecting (e : Thrown) : Helpers :=
  { mergeSettings := fun _ => Except.error e,
    getGoogleFontConfig := sampleFontConfig,
    getLangSettings := sampleLangSettings }

/-! ## Auxiliary facts -/

/-- The conjunction `a && p` with a boolean `p` is the boolean `true` exactly
when `a` is truthy and `p` is `true`. -/
theorem js_and_eq_true_iff (a : JSVal) (p : Bool) :
    JSVal.and a (bool p) = bool true ↔ a.toBoolean = true ∧ p = true := by
  unfold JSVal.and
  cases ha : a.toBoolean
  · cases a <;> simp_all [JSVal.toBoolean]
  · simp

/-- A string is truthy exactly when it is not empty. -/
theorem toBoolean_str (s : String) : (str s).toBoolean = true ↔ s ≠ "" := by
  simp [JSVal.toBoolean]

/-- Inversion of a successful bootstrap: the three awaited or evaluated pieces
exist and the returned object is assembled from them. -/
theorem result_ok_inv {env : Env} {h : Helpers} {settings : JSVal} {cfg : Config}
    (hr : (defaultExport env h settings).result = Except.ok cfg) :
    ∃ m g i, h.mergeSettings settings = Except.ok m ∧ analyticsGtmId m = Except.ok g ∧
      h.getLangSettings m (editorMode env) = Except.ok i ∧
      (defaultExport env h settings).calls =
        [Call.mergeSettings settings, Call.getGoogleFontConfig settings,
         Call.getLangSettings m (editorMode env)] ∧
      cfg.loading.color = get m "colors.accent" ∧
      cfg.buildModules = buildModules env (h.getGoogleFontConfig settings) ∧
      cfg.gtm = { id := g, enabled := JSVal.and g (bool (isProduction env)) } ∧
      cfg.pwa.metaName = get m "store.name" ∧
      cfg.pwa.runtimeCaching = [{ urlPattern := "https://cdn.schema.io/*" }] ∧
      cfg.i18n = i := by
  unfold defaultExport at hr ⊢
  cases hm : h.mergeSettings settings with
  | error e => simp [hm] at hr
  | ok m =>
    cases hg : analyticsGtmId m with
    | error e => simp [hm, hg] at hr
    | ok g =>
      cases hl : h.getLangSettings m (editorMode env) with
      | error e => simp [hm, hg, hl] at hr
      | ok i =>
        simp only [hm, hg, hl] at hr ⊢
        injection hr with hr
        subst hr
        exact ⟨m, g, i, rfl, hg, hl, rfl, rfl, rfl, rfl, rfl, rfl, rfl⟩

/-- A bootstrap whose three fallible steps succeed returns an object. -/
theorem result_ok_of {env : Env} {h : Helpers} {settings m g i : JSVal}
    (hm : h.mergeSettings settings = Except.ok m) (hg : analyticsGtmId m = Except.ok g)
    (hl : h.getLangSettings m (editorMode env) = Except.ok i) :
    ∃ cfg, (defaultExport env h settings).result = Except.ok cfg := by
  unfold defaultExport
  simp only [hm, hg, hl]
  exact ⟨_, rfl⟩

/-- A bootstrap whose override resolution rejects stops after that call. -/
theorem merge_failure_outcome {env : Env} {h : Helpers} {settings : JSVal} {e : Thrown}
    (he : h.mergeSettings settings = Except.error e) :
    defaultExport env h settings =
      { calls := [Call.mergeSettings settings], result := Except.error e } := by
  unfold defaultExport
  simp only [he]

/-- A bootstrap whose model has no readable `analytics.gtmId` throws what the
member expression throws, after the font projector has been called. -/
theorem result_error_of_gtm {env : Env} {h : Helpers} {settings m : JSVal} {e : Thrown}
    (hm : h.mergeSettings settings = Except.ok m) (hg : analyticsGtmId m = Except.error e) :
    defaultExport env h settings =
      { calls := [Call.mergeSettings settings, Call.getGoogleFontConfig settings],
        result := Except.error e } := by
  unfold defaultExport
  simp only [hm, hg]

/-- A bootstrap whose localisation helper rejects throws the rejection. -/
theorem result_error_of_lang {env : Env} {h : Helpers} {settings m g : JSVal} {e : Thrown}
    (hm : h.mergeSettings settings = Except.ok m) (hg : analyticsGtmId m = Except.ok g)
    (hl : h.getLangSettings m (editorMode env) = Except.error e) :
    defaultExport env h settings =
      { calls := [Call.mergeSettings settings, Call.getGoogleFontConfig settings,
                  Call.getLangSettings m (editorMode env)],
        result := Except.error e } := by
  unfold defaultExport
  simp only [hm, hg, hl]
  rfl

/-- A key that no field carries is not found by the lookup. -/
theorem lookup_of_not_any (fields : List (String × JSVal)) (key : String)
    (hk : (fields.any fun kv => kv.1 == key) = false) : fields.lookup key = none := by
  induction fields with
  | nil => rfl
  | cons kv rest ih =>
    obtain ⟨k, v⟩ := kv
    simp only [List.any_cons, Bool.or_eq_false_iff] at hk
    have hne : (key == k) = false := by
      have h1 := hk.1
      simp only [beq_eq_false_iff_ne, ne_eq] at h1 ⊢
      exact fun h2 => h1 h2.symm
    rw [List.lookup_cons, hne]
    exact ih hk.2

/-- Reading a key that an object does not have yields `undefined`. -/
theorem getProp_of_not_hasOwn (fields : List (String × JSVal)) (key : String)
    (hk : (obj fields).hasOwn key = false) : (obj fields).getProp key = undefined := by
  have hk' : (fields.any fun kv => kv.1 == key) = false := hk
  show (fields.lookup key).getD undefined = undefined
  rw [lookup_of_not_any fields key hk']
  rfl

/-- The lookup `get(m, 'ns.leaf')` on an object that has neither the
namespace `ns` nor a key literally named `ns.leaf`. -/
theorem get_two_level_missing (fields : List (String × JSVal)) (path ns leaf : String)
    (hdot : path.toList.contains '.' = true) (hpath : stringToPath path = [ns, leaf])
    (hns : (obj fields).hasOwn ns = false) (hlit : (obj fields).hasOwn path = false) :
    get (obj fields) path = undefined := by
  have hcast : castPath path (obj fields) = [ns, leaf] := by
    unfold castPath
    rw [hdot, hlit, hpath]
    rfl
  unfold get baseGet
  rw [hcast]
  simp only [JSVal.isNullish, baseGetLoop, getProp_of_not_hasOwn fields ns hns]
  rfl

/-- The font configuration of every returned object is the font projector
applied to the base document `settings`. -/
theorem fonts_options_eq {env : Env} {h : Helpers} {settings : JSVal} {cfg : Config}
    (hr : (defaultExport env h settings).result = Except.ok cfg) :
    moduleOptions cfg.buildModules "@nuxtjs/google-fonts"
      = some (h.getGoogleFontConfig settings) := by
  obtain ⟨m, g, i, -, -, -, -, -, hb, -⟩ := result_ok_inv hr
  rw [hb]
  rfl

/-! ## The analytics entry -/

/-- C1: for the model `m` resolved by `mergeSettings` and every returned
configuration, `gtm.enabled` is the boolean `true` exactly when the tag id
`m.analytics.gtmId` is non-empty (truthy; for a string: different from the
empty string) and the build is a production build; outside production it is
never `true`. -/
theorem gtm_enabled_true_iff (env : Env) (h : Helpers) (settings m : JSVal) (cfg : Config)
    (hm : h.mergeSettings settings = Except.ok m)
    (hr : (defaultExport env h settings).result = Except.ok cfg) :
    ∃ g, analyticsGtmId m = Except.ok g ∧
      (cfg.gtm.enabled = bool true ↔ g.toBoolean = true ∧ isProduction env = true) ∧
      (∀ s, g = str s → (cfg.gtm.enabled = bool true ↔ s ≠ "" ∧ isProduction env = true)) ∧
      (isProduction env = false → cfg.gtm.enabled ≠ bool true) := by
  obtain ⟨m', g, i, hm', hg, -, -, -, -, hgtm, -⟩ := result_ok_inv hr
  rw [hm] at hm'
  injection hm' with hm'
  subst hm'
  have key : cfg.gtm.enabled = bool true ↔ g.toBoolean = true ∧ isProduction env = true := by
    rw [hgtm]
    exact js_and_eq_true_iff g (isProduction env)
  refine ⟨g, hg, key, ?_, ?_⟩
  · intro s hs
    rw [key, hs, toBoolean_str]
  · intro hp hen
    rw [key, hp] at hen
    exact Bool.noConfusion hen.2

/-- C1 at the overridden document in a production build. -/
theorem gtm_enabled_true_iff_witness :
    ∃ cfg, (defaultExport productionEnv (helpersReturning mergedDocument) baseDocument).result
        = Except.ok cfg ∧ cfg.gtm.enabled = bool true := by
  refine ⟨_, rfl, ?_⟩
  obtain ⟨g, hg, -, hs, -⟩ := gtm_enabled_true_iff productionEnv
    (helpersReturning mergedDocument) baseDocument mergedDocument _ rfl rfl
  have hg' : g = str "GTM-1" := by
    have h2 : analyticsGtmId mergedDocument = Except.ok (str "GTM-1") := rfl
    rw [h2] at hg
    injection hg with hg
    exact hg.symm
  exact (hs "GTM-1" hg').mpr ⟨by decide, rfl⟩

/-- C2: when the resolved model carries the non-empty string `g` as tag id,
the `gtm` entry of the returned configuration is `{id: g, enabled: true}` in
a production build and `{id: g, enabled: false}` otherwise; the id is the one
of the resolved model. -/
theorem gtm_entry_of_nonempty_id (env : Env) (h : Helpers) (settings m : JSVal) (g : String)
    (cfg : Config) (hm : h.mergeSettings settings = Except.ok m)
    (hg : analyticsGtmId m = Except.ok (str g)) (hne : g ≠ "")
    (hr : (defaultExport env h settings).result = Except.ok cfg) :
    (isProduction env = true → cfg.gtm = { id := str g, enabled := bool true }) ∧
    (isProduction env = false → cfg.gtm = { id := str g, enabled := bool false }) ∧
    analyticsGtmId m = Except.ok cfg.gtm.id := by
  obtain ⟨m', g', i, hm', hg', -, -, -, -, hgtm, -⟩ := result_ok_inv hr
  rw [hm] at hm'
  injection hm' with hm'
  subst hm'
  rw [hg] at hg'
  injection hg' with hg'
  subst hg'
  have ht : (str g).toBoolean = true := (toBoolean_str g).mpr hne
  refine ⟨?_, ?_, ?_⟩
  · intro hp
    rw [hgtm, hp]
    simp [JSVal.and, ht]
  · intro hp
    rw [hgtm, hp]
    simp [JSVal.and, ht]
  · rw [hgtm]
    exact hg

/-- C2 at the id `GTM-1` overriding an empty base id, in both build modes. -/
theorem gtm_entry_of_nonempty_id_witness :
    (∃ cfg, (defaultExport productionEnv (helpersReturning mergedDocument) baseDocument).result
        = Except.ok cfg ∧ cfg.gtm = { id := str "GTM-1", enabled := bool true }) ∧
    (∃ cfg, (defaultExport developmentEnv (helpersReturning mergedDocument) baseDocument).result
        = Except.ok cfg ∧ cfg.gtm = { id := str "GTM-1", enabled := bool false }) := by
  refine ⟨⟨_, rfl, ?_⟩, ⟨_, rfl, ?_⟩⟩
  · exact (gtm_entry_of_nonempty_id productionEnv (helpersReturning mergedDocument)
      baseDocument mergedDocument "GTM-1" _ rfl rfl (by decide) rfl).1 rfl
  · exact (gtm_entry_of_nonempty_id developmentEnv (helpersReturning mergedDocument)
      baseDocument mergedDocument "GTM-1" _ rfl rfl (by decide) rfl).2.1 rfl

/-! ## Module order -/

/-- C3: in the `buildModules` list of every returned configuration the entry
`~/modules/swell-editor` and the entry `~/modules/swell` each occur exactly
once, and the former stands at a strictly smaller index than the latter. -/
theorem swell_editor_before_swell (env : Env) (h : Helpers) (settings : JSVal) (cfg : Config)
    (hr : (defaultExport env h settings).result = Except.ok cfg) :
    (moduleNames cfg.buildModules).count "~/modules/swell-editor" = 1 ∧
    (moduleNames cfg.buildModules).count "~/modules/swell" = 1 ∧
    ∀ i j : Nat, (moduleNames cfg.buildModules)[i]? = some "~/modules/swell-editor" →
      (moduleNames cfg.buildModules)[j]? = some "~/modules/swell" → i < j := by
  obtain ⟨m, g, i, -, -, -, -, -, hb, -⟩ := result_ok_inv hr
  have hn : moduleNames cfg.buildModules =
      ["nuxt-i18n", "@nuxtjs/tailwindcss", "@nuxtjs/google-fonts", "~/modules/swell-editor",
       "~/modules/swell", "@nuxtjs/pwa"] := by
    rw [hb]
    rfl
  rw [hn]
  refine ⟨by decide, by decide, ?_⟩
  intro i j hi hj
  have hi3 : i = 3 := by
    rcases i with _ | _ | _ | _ | _ | _ | i
    all_goals first | rfl | simp at hi
  have hj4 : j = 4 := by
    rcases j with _ | _ | _ | _ | _ | _ | j
    all_goals first | rfl | simp at hj
  omega

/-- C3 at a sample input: the two modules stand at indices 3 and 4. -/
theorem swell_editor_before_swell_witness :
    ∃ cfg, (defaultExport editorEnv (helpersReturning mergedDocument) baseDocument).result
        = Except.ok cfg ∧
      (moduleNames cfg.buildModules)[3]? = some "~/modules/swell-editor" ∧
      (moduleNames cfg.buildModules)[4]? = some "~/modules/swell" ∧
      (moduleNames cfg.buildModules).count "~/modules/swell-editor" = 1 ∧
      (moduleNames cfg.buildModules).count "~/modules/swell" = 1 := by
  refine ⟨_, rfl, rfl, rfl, ?_⟩
  have hw := swell_editor_before_swell editorEnv (helpersReturning mergedDocument)
    baseDocument _ rfl
  exact ⟨hw.1, hw.2.1⟩

/-! ## Failure of override resolution -/

/-- C4: when `mergeSettings` fails with `e`, the bootstrap fails with the same
`e`, returns no configuration, and calls no projector: the only helper call
made is the one to `mergeSettings`. -/
theorem merge_failure_aborts (env : Env) (h : Helpers) (settings : JSVal) (e : Thrown)
    (he : h.mergeSettings settings = Except.error e) :
    (defaultExport env h settings).result = Except.error e ∧
    (∀ cfg, (defaultExport env h settings).result ≠ Except.ok cfg) ∧
    (defaultExport env h settings).calls = [Call.mergeSettings settings] ∧
    (defaultExport env h settings).calls.any Call.isProjector = false := by
  rw [merge_failure_outcome he]
  refine ⟨rfl, ?_, rfl, rfl⟩
  intro cfg hc
  exact Except.noConfusion hc

/-- C4 at a resolver rejecting with a schema error. -/
theorem merge_failure_aborts_witness :
    (defaultExport productionEnv (helpersRejecting (Thrown.rejected (str "SchemaError")))
        baseDocument).result = Except.error (Thrown.rejected (str "SchemaError")) ∧
    (defaultExport productionEnv (helpersRejecting (Thrown.rejected (str "SchemaError")))
        baseDocument).calls = [Call.mergeSettings baseDocument] := by
  have hw := merge_failure_aborts productionEnv
    (helpersRejecting (Thrown.rejected (str "SchemaError"))) baseDocument
    (Thrown.rejected (str "SchemaError")) rfl
  exact ⟨hw.1, hw.2.2.1⟩

/-! ## The font configuration -/

/-- C5: the font configuration is the font projector applied to the base
document, not to the resolved model: with a base document naming the family
`Roboto` and a resolved model naming `Lato`, the options handed to
`@nuxtjs/google-fonts` are the projection of the base document (`Roboto`)
and differ from the projection of the resolved model (`Lato`). -/
theorem fonts_projected_from_base_document :
    ∃ cfg, (defaultExport productionEnv (helpersReturning fontMergedDocument)
        fontBaseDocument).result = Except.ok cfg ∧
      moduleOptions cfg.buildModules "@nuxtjs/google-fonts"
        = some (arr [obj [("family", str "Roboto")]]) ∧
      sampleFontConfig fontBaseDocument = arr [obj [("family", str "Roboto")]] ∧
      sampleFontConfig fontMergedDocument = arr [obj [("family", str "Lato")]] ∧
      moduleOptions cfg.buildModules "@nuxtjs/google-fonts"
        ≠ some (sampleFontConfig fontMergedDocument) := by
  refine ⟨_, rfl, ?_⟩
  have hf := fonts_options_eq
    (rfl : (defaultExport productionEnv (helpersReturning fontMergedDocument)
      fontBaseDocument).result = Except.ok _)
  have hb : sampleFontConfig fontBaseDocument = arr [obj [("family", str "Roboto")]] := rfl
  have hm : sampleFontConfig fontMergedDocument = arr [obj [("family", str "Lato")]] := rfl
  refine ⟨hf.trans (congrArg some hb), hb, hm, ?_⟩
  rw [hf, hm]
  intro hc
  have hc' : sampleFontConfig fontBaseDocument = arr [obj [("family", str "Lato")]] :=
    Option.some.inj hc
  rw [hb] at hc'
  simp at hc'

/-! ## Sequencing -/

/-- C6: in every invocation the call log starts with the single call
`mergeSettings(settings)`, and every returned configuration takes its `i18n`
entry, `loading.color`, `pwa.meta.name` and `gtm.id` from the one model `m`
which that call resolved, the projector calls coming after it. -/
theorem merge_called_once_first (env : Env) (h : Helpers) (settings : JSVal) :
    (defaultExport env h settings).calls.head? = some (Call.mergeSettings settings) ∧
    (defaultExport env h settings).calls.filter Call.isMerge = [Call.mergeSettings settings] ∧
    ∀ cfg, (defaultExport env h settings).result = Except.ok cfg →
      ∃ m, h.mergeSettings settings = Except.ok m ∧
        (defaultExport env h settings).calls =
          [Call.mergeSettings settings, Call.getGoogleFontConfig settings,
           Call.getLangSettings m (editorMode env)] ∧
        h.getLangSettings m (editorMode env) = Except.ok cfg.i18n ∧
        cfg.loading.color = get m "colors.accent" ∧
        cfg.pwa.metaName = get m "store.name" ∧
        analyticsGtmId m = Except.ok cfg.gtm.id := by
  refine ⟨?_, ?_, ?_⟩
  · cases hm : h.mergeSettings settings with
    | error e => rw [(merge_failure_outcome hm)]; rfl
    | ok m =>
      cases hg : analyticsGtmId m with
      | error e => rw [result_error_of_gtm hm hg]; rfl
      | ok g =>
        cases hl : h.getLangSettings m (editorMode env) with
        | error e => rw [result_error_of_lang hm hg hl]; rfl
        | ok i =>
          obtain ⟨cfg, hr⟩ := result_ok_of hm hg hl
          obtain ⟨m', -, -, -, -, -, hc, -⟩ := result_ok_inv hr
          rw [hc]
          rfl
  · cases hm : h.mergeSettings settings with
    | error e => rw [(merge_failure_outcome hm)]; rfl
    | ok m =>
      cases hg : analyticsGtmId m with
      | error e => rw [result_error_of_gtm hm hg]; rfl
      | ok g =>
        cases hl : h.getLangSettings m (editorMode env) with
        | error e => rw [result_error_of_lang hm hg hl]; rfl
        | ok i =>
          obtain ⟨cfg, hr⟩ := result_ok_of hm hg hl
          obtain ⟨m', -, -, -, -, -, hc, -⟩ := result_ok_inv hr
          rw [hc]
          rfl
  · intro cfg hr
    obtain ⟨m, g, i, hm, hg, hl, hc, hcol, -, hgtm, hname, -, hi⟩ := result_ok_inv hr
    refine ⟨m, hm, hc, ?_, hcol, hname, ?_⟩
    · rw [hi]
      exact hl
    · rw [hgtm]
      exact hg

/-- C6 at a sample input with the editor switched on. -/
theorem merge_called_once_first_witness :
    ∃ cfg, (defaultExport editorEnv (helpersReturning mergedDocument) baseDocument).result
        = Except.ok cfg ∧
      (defaultExport editorEnv (helpersReturning mergedDocument) baseDocument).calls =
        [Call.mergeSettings baseDocument, Call.getGoogleFontConfig baseDocument,
         Call.getLangSettings mergedDocument true] ∧
      cfg.loading.color = str "#000" ∧ cfg.gtm.id = str "GTM-1" ∧
      cfg.pwa.metaName = undefined := by
  refine ⟨_, rfl, ?_⟩
  obtain ⟨m, hm, hc, -, hcol, hname, hid⟩ :=
    (merge_called_once_first editorEnv (helpersReturning mergedDocument) baseDocument).2.2 _ rfl
  have hm' : m = mergedDocument := by
    have h2 : (helpersReturning mergedDocument).mergeSettings baseDocument
        = Except.ok mergedDocument := rfl
    rw [h2] at hm
    injection hm with hm
    exact hm.symm
  subst hm'
  exact ⟨rfl, rfl, rfl, rfl⟩

/-! ## The editor flag -/

/-- C7: the editor flag is true exactly when `SWELL_EDITOR` is the string
`true`, and in every returned configuration the option `previewContent` of
`~/modules/swell` and the option `useEditorSettings` of
`~/modules/swell-editor` are both the boolean value of that flag. -/
theorem editor_flag_options (env : Env) (h : Helpers) (settings : JSVal) (cfg : Config)
    (hr : (defaultExport env h settings).result = Except.ok cfg) :
    (editorMode env = true ↔ env "SWELL_EDITOR" = some "true") ∧
    moduleOption cfg.buildModules "~/modules/swell" "previewContent"
      = some (bool (editorMode env)) ∧
    moduleOption cfg.buildModules "~/modules/swell-editor" "useEditorSettings"
      = some (bool (editorMode env)) := by
  obtain ⟨m, g, i, -, -, -, -, -, hb, -⟩ := result_ok_inv hr
  rw [hb]
  refine ⟨?_, rfl, rfl⟩
  unfold editorMode
  exact decide_eq_true_iff

/-- C7 at an environment with `SWELL_EDITOR=true`. -/
theorem editor_flag_options_witness :
    ∃ cfg, (defaultExport editorEnv (helpersReturning baseDocument) baseDocument).result
        = Except.ok cfg ∧
      moduleOption cfg.buildModules "~/modules/swell" "previewContent" = some (bool true) ∧
      moduleOption cfg.buildModules "~/modules/swell-editor" "useEditorSettings"
        = some (bool true) := by
  refine ⟨_, rfl, ?_⟩
  have hw := editor_flag_options editorEnv (helpersReturning baseDocument) baseDocument _ rfl
  exact ⟨hw.2.1, hw.2.2⟩

/-! ## The offline cache rules -/

/-- C8: the list `pwa.workbox.runtimeCaching` of every returned configuration
is the one-element list whose rule has the pattern `https://cdn.schema.io/*`,
whatever the base document, the resolved model and the two flags are. -/
theorem runtime_caching_static (env : Env) (h : Helpers) (settings : JSVal) (cfg : Config)
    (hr : (defaultExport env h settings).result = Except.ok cfg) :
    cfg.pwa.runtimeCaching = [{ urlPattern := "https://cdn.schema.io/*" }] := by
  obtain ⟨m, g, i, -, -, -, -, -, -, -, -, hc, -⟩ := result_ok_inv hr
  exact hc

/-- C8 at a development build. -/
theorem runtime_caching_static_witness :
    ∃ cfg, (defaultExport developmentEnv (helpersReturning fontMergedDocument)
        fontBaseDocument).result = Except.ok cfg ∧
      cfg.pwa.runtimeCaching = [{ urlPattern := "https://cdn.schema.io/*" }] :=
  ⟨_, rfl, runtime_caching_static developmentEnv (helpersReturning fontMergedDocument)
    fontBaseDocument _ rfl⟩

/-! ## The analytics flag as a value -/

/-- C9, counterexample: for a resolved model whose tag id is the empty
string, `gtm.enabled` is the empty string itself, in a production build and
in a development build, and so is no boolean at all. -/
theorem gtm_enabled_empty_id_not_boolean :
    analyticsGtmId baseDocument = Except.ok (str "") ∧
    (∃ cfg, (defaultExport productionEnv (helpersReturning baseDocument) baseDocument).result
        = Except.ok cfg ∧ cfg.gtm.enabled = str "" ∧ ∀ b, cfg.gtm.enabled ≠ bool b) ∧
    (∃ cfg, (defaultExport developmentEnv (helpersReturning baseDocument) baseDocument).result
        = Except.ok cfg ∧ cfg.gtm.enabled = str "" ∧ ∀ b, cfg.gtm.enabled ≠ bool b) := by
  refine ⟨rfl, ⟨_, rfl, rfl, ?_⟩, ⟨_, rfl, rfl, ?_⟩⟩
  · intro b hb
    exact JSVal.noConfusion hb
  · intro b hb
    exact JSVal.noConfusion hb

/-- C9, amended: for a textual tag id `g`, `gtm.enabled` is truthy exactly
when `g` is non-empty and the build is a production build; it is the boolean
production flag when `g` is non-empty and the empty string when `g` is
empty. -/
theorem gtm_enabled_truthy_iff (env : Env) (h : Helpers) (settings m : JSVal) (g : String)
    (cfg : Config) (hm : h.mergeSettings settings = Except.ok m)
    (hg : analyticsGtmId m = Except.ok (str g))
    (hr : (defaultExport env h settings).result = Except.ok cfg) :
    cfg.gtm.enabled.toBoolean = (decide (g ≠ "") && isProduction env) ∧
    (g ≠ "" → cfg.gtm.enabled = bool (isProduction env)) ∧
    (g = "" → cfg.gtm.enabled = str "") := by
  obtain ⟨m', g', i, hm', hg', -, -, -, -, hgtm, -⟩ := result_ok_inv hr
  rw [hm] at hm'
  injection hm' with hm'
  subst hm'
  rw [hg] at hg'
  injection hg' with hg'
  subst hg'
  rw [hgtm]
  by_cases hne : g = ""
  · subst hne
    refine ⟨rfl, ?_, fun _ => rfl⟩
    intro hc
    exact absurd rfl hc
  · have ht : (str g).toBoolean = true := (toBoolean_str g).mpr hne
    refine ⟨?_, ?_, fun hc => absurd hc hne⟩
    · simp [JSVal.and, ht, JSVal.toBoolean, hne]
    · intro _
      simp [JSVal.and, ht]

/-- C9, amended, at an empty id and at a non-empty id. -/
theorem gtm_enabled_truthy_iff_witness :
    (∃ cfg, (defaultExport developmentEnv (helpersReturning baseDocument) baseDocument).result
        = Except.ok cfg ∧ cfg.gtm.enabled.toBoolean = false ∧ cfg.gtm.enabled = str "") ∧
    (∃ cfg, (defaultExport productionEnv (helpersReturning mergedDocument) mergedDocument).result
        = Except.ok cfg ∧ cfg.gtm.enabled.toBoolean = true ∧ cfg.gtm.enabled = bool true) := by
  refine ⟨⟨_, rfl, ?_⟩, ⟨_, rfl, ?_⟩⟩
  · have hw := gtm_enabled_truthy_iff developmentEnv (helpersReturning baseDocument)
      baseDocument baseDocument "" _ rfl rfl rfl
    exact ⟨hw.1, hw.2.2 rfl⟩
  · have hw := gtm_enabled_truthy_iff productionEnv (helpersReturning mergedDocument)
      mergedDocument mergedDocument "GTM-1" _ rfl rfl rfl
    exact ⟨hw.1, hw.2.1 (by decide)⟩

/-! ## Missing namespaces -/

/-- C10, counterexample: a resolved model without a `colors` namespace but
with a top-level key literally named `colors.accent` yields a configuration
whose `loading.color` is the value of that key, not `undefined`. -/
theorem missing_colors_literal_key :
    dottedKeyDocument.hasOwn "colors" = false ∧
    ∃ cfg, (defaultExport productionEnv (helpersReturning dottedKeyDocument)
        baseDocument).result = Except.ok cfg ∧
      cfg.loading.color = str "#f00" ∧ cfg.loading.color ≠ undefined := by
  refine ⟨rfl, _, rfl, rfl, ?_⟩
  intro hc
  exact JSVal.noConfusion hc

/-- C10, amended: when `mergeSettings` returns a mapping `m` and
`getLangSettings` succeeds on it, a configuration is returned exactly when
`m.analytics` is neither `null` nor `undefined`, and otherwise the bootstrap
throws the `TypeError` of reading `gtmId`; in a returned configuration a
missing `colors` (`store`) namespace leaves `loading.color` (`pwa.meta.name`)
`undefined` provided `m` has no key literally named `colors.accent`
(`store.name`). -/
theorem config_returned_iff_analytics (env : Env) (h : Helpers) (settings : JSVal)
    (fields : List (String × JSVal)) (i : JSVal)
    (hm : h.mergeSettings settings = Except.ok (obj fields))
    (hl : h.getLangSettings (obj fields) (editorMode env) = Except.ok i) :
    ((∃ cfg, (defaultExport env h settings).result = Except.ok cfg) ↔
      ((obj fields).getProp "analytics").isNullish = false) ∧
    (((obj fields).getProp "analytics").isNullish = true →
      (defaultExport env h settings).result =
        Except.error (Thrown.typeError "gtmId" ((obj fields).getProp "analytics"))) ∧
    (∀ cfg, (defaultExport env h settings).result = Except.ok cfg →
      ((obj fields).hasOwn "colors" = false → (obj fields).hasOwn "colors.accent" = false →
        cfg.loading.color = undefined) ∧
      ((obj fields).hasOwn "store" = false → (obj fields).hasOwn "store.name" = false →
        cfg.pwa.metaName = undefined)) := by
  have hgtm : analyticsGtmId (obj fields) = member ((obj fields).getProp "analytics") "gtmId" :=
    rfl
  have hnull : ((obj fields).getProp "analytics").isNullish = true →
      (defaultExport env h settings).result =
        Except.error (Thrown.typeError "gtmId" ((obj fields).getProp "analytics")) := by
    intro hn
    have hg : analyticsGtmId (obj fields) =
        Except.error (Thrown.typeError "gtmId" ((obj fields).getProp "analytics")) := by
      rw [hgtm]
      unfold member
      rw [hn]
      rfl
    rw [result_error_of_gtm hm hg]
  refine ⟨⟨?_, ?_⟩, hnull, ?_⟩
  · rintro ⟨cfg, hr⟩
    cases hn : ((obj fields).getProp "analytics").isNullish with
    | false => rfl
    | true =>
      rw [hnull hn] at hr
      exact Except.noConfusion hr
  · intro hn
    have hg : analyticsGtmId (obj fields) =
        Except.ok (((obj fields).getProp "analytics").getProp "gtmId") := by
      rw [hgtm]
      unfold member
      rw [hn]
      rfl
    exact result_ok_of hm hg hl
  · intro cfg hr
    obtain ⟨m, g, j, hm', -, -, -, hcol, -, -, hname, -⟩ := result_ok_inv hr
    rw [hm] at hm'
    injection hm' with hm'
    subst hm'
    refine ⟨?_, ?_⟩
    · intro hns hlit
      rw [hcol]
      exact get_two_level_missing fields "colors.accent" "colors" "accent" (by decide) rfl
        hns hlit
    · intro hns hlit
      rw [hname]
      exact get_two_level_missing fields "store.name" "store" "name" (by decide) rfl hns hlit

/-- C10, amended, at a model with only `analytics` and at a model without
it. -/
theorem config_returned_iff_analytics_witness :
    (∃ cfg, (defaultExport productionEnv
        (helpersReturning (obj [("analytics", obj [("gtmId", str "GTM-1")])]))
        baseDocument).result = Except.ok cfg ∧
      cfg.loading.color = undefined ∧ cfg.pwa.metaName = undefined) ∧
    (defaultExport productionEnv
        (helpersReturning (obj [("colors", obj [("accent", str "#000")])]))
        baseDocument).result = Except.error (Thrown.typeError "gtmId" undefined) := by
  refine ⟨⟨_, rfl, ?_⟩, ?_⟩
  · have hw := (config_returned_iff_analytics productionEnv
      (helpersReturning (obj [("analytics", obj [("gtmId", str "GTM-1")])])) baseDocument
      [("analytics", obj [("gtmId", str "GTM-1")])] _ rfl rfl).2.2 _ rfl
    exact ⟨hw.1 rfl rfl, hw.2 rfl rfl⟩
  · exact (config_returned_iff_analytics productionEnv
      (helpersReturning (obj [("colors", obj [("accent", str "#000")])])) baseDocument
      [("colors", obj [("accent", str "#000")])] _ rfl rfl).2.1 rfl

end NuxtConfig
